import Mathlib

/-!
# Verification of the NES sprite reader

A shallow embedding of `nes_sprite_reader.py` (Python 2).  Byte strings are
modelled as `List Nat` (each element a byte value), raised Python exceptions as
the `Except PyError` monad, and PIL images as a `Canvas` structure carrying a
width, a height and a pixel function.  The external colour table
(`nes_palette.NES_PALETTE`, not part of the sources) is a parameter of type
`Nat → Option Color`; per the specification it is a 256-entry mapping from a
byte value to an RGB triple.
-/

/-- An RGB triple, as produced by the colour table and palettes. -/
abbrev Color := Nat × Nat × Nat

/-- The background fill used for every `Image.new(..., 'white')` call. -/
def white : Color := (255, 255, 255)

/-- The Python exceptions the program can raise: `IndexError` (sequence index
out of range), `ValueError` (tuple-unpack of a wrong-sized sequence,
`int('', 16)`, `max` of an empty sequence), `KeyError` (dictionary lookup
miss) and `ZeroDivisionError`. -/
inductive PyError where
  | indexError
  | valueError
  | keyError
  | zeroDivisionError
  deriving DecidableEq, Repr

/-- A palette: the Python dict from pixel-index (the string keys `'0'`..`'3'`,
modelled as the numbers 0..3) to an RGB triple; `none` models a missing key. -/
abbrev Palette := Nat → Option Color

/-- A decoded tile: 8 rows of 8 pixel-index values. -/
abbrev Tile := List (List Nat)

/-- Python sequence indexing `l[i]` for a non-negative index: `IndexError`
when out of range. -/
def pyByte (l : List Nat) (i : Nat) : Except PyError Nat :=
  match l.get? i with
  | some v => .ok v
  | none => .error .indexError

/-- Python list indexing `l[i]` for an `int` index: negative indices count
from the end of the list, and an index outside `[-len, len)` raises
`IndexError`. -/
def pyGet {α : Type} (l : List α) (i : Int) : Except PyError α :=
  if 0 ≤ i then
    match l.get? i.toNat with
    | some v => .ok v
    | none => .error .indexError
  else if i.natAbs ≤ l.length then
    match l.get? (l.length - i.natAbs) with
    | some v => .ok v
    | none => .error .indexError
  else .error .indexError

/-- Python dictionary lookup `d[k]`: `KeyError` when the key is missing.
Used both for the colour table and for palettes. -/
def pyLookup (d : Nat → Option Color) (k : Nat) : Except PyError Color :=
  match d k with
  | some c => .ok c
  | none => .error .keyError

/-- Python `range(0, stop, step)` for a positive `step`: the multiples of
`step` below `stop`. -/
def pyRange (stop step : Nat) : List Nat :=
  (List.range ((stop + step - 1) / step)).map (fun k => k * step)

/-- `ConvertToHex`: `int(binascii.hexlify(bytes_), 16)`, the big-endian value
of a byte string.  `int('', 16)` on an empty string raises `ValueError`. -/
def ConvertToHex (bs : List Nat) : Except PyError Nat :=
  match bs with
  | [] => .error .valueError
  | _ => .ok (bs.foldl (fun acc b => acc * 256 + b) 0)

/-- Reading one header byte and converting it: `ConvertToHex(data[i])`. -/
def readByteHex (data : List Nat) (i : Nat) : Except PyError Nat := do
  let ch ← pyByte data i
  ConvertToHex [ch]

/-- The four bits of a nibble, most significant first: the Python
`'{:04b}'.format(n)` string. -/
def nibbleBits (n : Nat) : List Nat :=
  [n / 8 % 2, n / 4 % 2, n / 2 % 2, n % 2]

/-- `CompositeSpriteValue`: pair the bit strings positionally; each digit is
`int(n1+n2, 2)`, i.e. twice the channel-A bit plus the channel-B bit, so that
(0,0)↦0, (0,1)↦1, (1,0)↦2 and (1,1)↦3. -/
def CompositeSpriteValue (n1 n2 : List Nat) : List Nat :=
  List.zipWith (fun a b => 2 * a + b) n1 n2

/-- `binascii.hexlify`: each byte becomes its high hex digit followed by its
low hex digit (a hex digit is exactly a nibble value). -/
def hexNibbles (bs : List Nat) : List Nat :=
  bs.flatMap (fun b => [b / 16, b % 16])

/-- `LoadSprite`: split the 16-byte record into two 8-byte channels, hexlify
both, and for each of the 8 row positions unpack the two hex digits of each
channel (a tuple-unpack of a slice that does not hold exactly 2 items raises
`ValueError`), then composite high and low nibbles.  Returns the decoded tile
(the Python method appends it to `self.sprites`). -/
def LoadSprite (sprite_data : List Nat) : Except PyError Tile :=
  let channel_a := hexNibbles (sprite_data.take 8)
  let channel_b := hexNibbles ((sprite_data.drop 8).take 8)
  (List.range 8).mapM (fun i =>
    match (channel_a.drop (2 * i)).take 2, (channel_b.drop (2 * i)).take 2 with
    | [hi_a, low_a], [hi_b, low_b] =>
        .ok (CompositeSpriteValue (nibbleBits hi_a) (nibbleBits hi_b) ++
             CompositeSpriteValue (nibbleBits low_a) (nibbleBits low_b))
    | _, _ => .error .valueError)

/-- The row a 16-byte record yields from channel-A byte `a` and channel-B
byte `b`: high nibbles composited, then low nibbles. -/
def rowFromBytes (a b : Nat) : List Nat :=
  CompositeSpriteValue (nibbleBits (a / 16)) (nibbleBits (b / 16)) ++
  CompositeSpriteValue (nibbleBits (a % 16)) (nibbleBits (b % 16))

/-- The tile a full 16-byte record decodes to: row `i` composites byte `i`
(channel A) with byte `8+i` (channel B). -/
def decodedTile (record : List Nat) : Tile :=
  (List.range 8).map (fun i => rowFromBytes (record.getD i 0) (record.getD (8 + i) 0))

/-- `GetSpriteSize`: `(len(max(sprite, key=len))*8, len(sprite)*8)`; `max` of
an empty sequence raises `ValueError`. -/
def GetSpriteSize (sprite : List (List Int)) : Except PyError (Nat × Nat) :=
  match sprite with
  | [] => .error .valueError
  | _ => .ok ((sprite.foldl (fun m r => max m r.length) 0) * 8, sprite.length * 8)

/-- A PIL image: a width, a height, and the pixel at each coordinate.
Coordinates are `(x, y)` pairs. -/
structure Canvas where
  width : Nat
  height : Nat
  pix : Nat × Nat → Color

/-- `Image.new(mode, (w, h), fill)`. -/
def Canvas.new (w h : Nat) (fill : Color) : Canvas :=
  ⟨w, h, fun _ => fill⟩

/-- `img.putpixel(p, v)`: writes the pixel in place; a coordinate outside the
image raises `IndexError`.  Modelled functionally: the updated image is
returned. -/
def Canvas.putpixel (img : Canvas) (p : Nat × Nat) (v : Color) : Except PyError Canvas :=
  if p.1 < img.width ∧ p.2 < img.height then
    .ok { img with pix := fun q => if q = p then v else img.pix q }
  else .error .indexError

/-- `MaybeEnlargeImage`: if the `width × height` footprint at `(x_val, y_val)`
does not fit, allocate a white canvas of the max size in each dimension, paste
the old image at the origin (pixels outside the old bounds stay white) and
return the copy; otherwise return the image unchanged. -/
def MaybeEnlargeImage (img : Canvas) (width height x_val y_val : Nat) : Canvas :=
  if max img.height (height + y_val) > img.height ∨ max img.width (width + x_val) > img.width then
    { width := max img.width (width + x_val), height := max img.height (height + y_val),
      pix := fun p => if p.1 < img.width ∧ p.2 < img.height then img.pix p else white }
  else img

/-- The module-level `DEFAULT_PALETTE`. -/
def DEFAULT_PALETTE : Palette := fun v =>
  if v = 0 then some (0xff, 0xff, 0xff)
  else if v = 1 then some (0x75, 0x75, 0x75)
  else if v = 2 then some (0xbc, 0xbc, 0xbc)
  else if v = 3 then some (0, 0, 0)
  else none

/-- The body of the `LoadPalettes` loop on the already-sliced 4 source bytes:
builds the dict `{'0': T[pb[0]], '1': T[pb[2]], '2': T[pb[1]], '3': T[pb[3]]}`
(values for keys 1 and 2 switched), evaluating entries in Python's dict-literal
order — for each entry the byte index first (`IndexError` when the slice is
short), then the colour-table lookup (`KeyError` when the byte has no entry). -/
def LoadPaletteBytes (tbl : Nat → Option Color) (pb : List Nat) : Except PyError Palette := do
  let b0 ← pyByte pb 0
  let c0 ← pyLookup tbl b0
  let b2 ← pyByte pb 2
  let c1 ← pyLookup tbl b2
  let b1 ← pyByte pb 1
  let c2 ← pyLookup tbl b1
  let b3 ← pyByte pb 3
  let c3 ← pyLookup tbl b3
  pure (fun v =>
    if v = 0 then some c0
    else if v = 1 then some c1
    else if v = 2 then some c2
    else if v = 3 then some c3
    else none)

/-- One iteration of `LoadPalettes`: slice `self._file_data[address:address+4]`
(a Python slice never fails; it may be short) and build the palette dict. -/
def LoadPalette (tbl : Nat → Option Color) (data : List Nat) (address : Nat) :
    Except PyError Palette :=
  LoadPaletteBytes tbl ((data.drop address).take 4)

/-- `LoadPalettes`: resolve every `(name, address)` descriptor in order. -/
def LoadPalettes (tbl : Nat → Option Color) (data : List Nat)
    (palettes : List (String × Nat)) : Except PyError (List (String × Palette)) :=
  palettes.mapM (fun p => (LoadPalette tbl data p.2).map (fun pal => (p.1, pal)))

/-- The state `NESSpriteReader.__init__` builds. -/
structure NESSpriteReader where
  file_data : List Nat
  constant_bytes : List Nat
  prg_banks : Nat
  chr_banks : Nat
  flags_6 : Nat
  flags_7 : Nat
  prg_ram_size : Nat
  flags_9 : Nat
  flags_10 : Nat
  zero_fill : Nat
  prg_length : Nat
  chr_length : Nat
  prg_start : Nat
  chr_start : Nat
  chr_data : List Nat
  sprites : List Tile
  palettes : List (String × Palette)

/-- `NESSpriteReader.__init__` on the loaded file bytes: read the header
fields (single-byte reads raise `IndexError` past the end; the zero-fill slice
raises `ValueError` via `int('', 16)` when empty), derive the region offsets,
slice the character data, decode one sprite per 16-byte step of `chr_length`,
and resolve the palettes (`None` means skip). -/
def NESSpriteReader.load (data : List Nat) (palettes : Option (List (String × Nat)))
    (tbl : Nat → Option Color) : Except PyError NESSpriteReader := do
  let constant_bytes := data.take 4
  let prg_banks ← readByteHex data 4
  let chr_banks ← readByteHex data 5
  let flags_6 ← readByteHex data 6
  let flags_7 ← readByteHex data 7
  let prg_ram_size ← readByteHex data 8
  let flags_9 ← readByteHex data 9
  let flags_10 ← readByteHex data 10
  let zero_fill ← ConvertToHex ((data.drop 10).take 5)
  let header_length := 16
  let prg_length := prg_banks * 16384
  let chr_length := chr_banks * 8192
  let prg_start := header_length
  let chr_start := header_length + prg_length
  let chr_data := (data.drop chr_start).take chr_length
  let sprites ← (pyRange chr_length 16).mapM
    (fun index => LoadSprite ((chr_data.drop index).take 16))
  let pals ← match palettes with
    | none => pure []
    | some ps => LoadPalettes tbl data ps
  pure { file_data := data, constant_bytes := constant_bytes, prg_banks := prg_banks,
         chr_banks := chr_banks, flags_6 := flags_6, flags_7 := flags_7,
         prg_ram_size := prg_ram_size, flags_9 := flags_9, flags_10 := flags_10,
         zero_fill := zero_fill, prg_length := prg_length, chr_length := chr_length,
         prg_start := prg_start, chr_start := chr_start, chr_data := chr_data,
         sprites := sprites, palettes := pals }

/-- The innermost two loops of `DrawSprite`: write one tile's 8×8 pixels at
the block offset; for each pixel the palette lookup is evaluated first, then
`putpixel`. -/
def drawTilePixels (palette : Palette) (img : Canvas) (sprite : Tile)
    (x0 y0 : Nat) : Except PyError Canvas :=
  sprite.enum.foldlM (fun img ri_row =>
    ri_row.2.enum.foldlM (fun img ci_v => do
      let c ← pyLookup palette ci_v.2
      img.putpixel (x0 + ci_v.1, y0 + ri_row.1) c) img) img

/-- `DrawSprite`: compute the footprint, allocate (when no image is given) or
maybe enlarge the canvas, default the palette, then blit each referenced tile
of the layout at its 8×8 cell.  Tile references go through Python list
indexing, so an out-of-range index raises `IndexError`. -/
def DrawSprite (table : List Tile) (img? : Option Canvas)
    (sprites : List (List Int)) (palette? : Option Palette)
    (x_val y_val : Nat) : Except PyError Canvas := do
  let wh ← GetSpriteSize sprites
  let img := match img? with
    | none => Canvas.new (wh.1 + x_val) (wh.2 + y_val) white
    | some img => MaybeEnlargeImage img wh.1 wh.2 x_val y_val
  let palette := palette?.getD DEFAULT_PALETTE
  sprites.enum.foldlM (fun img bri_row =>
    bri_row.2.enum.foldlM (fun img bci_n => do
      let sprite ← pyGet table bci_n.2
      drawTilePixels palette img sprite (x_val + bci_n.1 * 8) (y_val + bri_row.1 * 8)) img) img

/-- The inner `for col_index in xrange(per_row)` loop of
`WriteAndNumberAllSprites`: each draw is wrapped in `try/except IndexError`,
so an `IndexError` (no more tiles) breaks out of the row; any other error
propagates.  The Python loop discards `DrawSprite`'s return value and relies
on in-place mutation; since the sheet canvas is always large enough, no
reallocation occurs and the returned canvas is that same mutated image, so the
embedding threads it. -/
def exportRowAux (table : List Tile) (palette : Palette) (img : Canvas)
    (row_index y_offset : Nat) : List Nat → Except PyError Canvas
  | [] => .ok img
  | c :: rest =>
    match DrawSprite table (some img) [[(((row_index + c : Nat)) : Int)]]
        (some palette) (c * 8) y_offset with
    | .ok img2 => exportRowAux table palette img2 row_index y_offset rest
    | .error .indexError => .ok img
    | .error e => .error e

/-- `WriteAndNumberAllSprites`: allocate the sheet canvas (`per_row = 0` would
raise `ZeroDivisionError` in the height computation; the height uses Python 2
floor division), then draw each row of `per_row` tiles.  The per-row text
label (`draw.text`) is an external rendering capability; the embedding records
the labelled row indices instead of their pixels.  The final `img.save` is
external I/O and is not modelled. -/
def WriteAndNumberAllSprites (table : List Tile) (palette? : Option Palette)
    (per_row : Nat) : Except PyError (Canvas × List Nat) :=
  if per_row = 0 then .error .zeroDivisionError else
  let height := (table.length / per_row + 1) * 8
  let img0 := Canvas.new (8 * per_row) height white
  let palette := palette?.getD DEFAULT_PALETTE
  (pyRange table.length per_row).foldlM (fun acc row_index => do
    let y_offset := row_index / per_row * 8
    let img ← exportRowAux table palette acc.1 row_index y_offset (List.range per_row)
    pure (img, acc.2 ++ [row_index])) (img0, ([] : List Nat))

/-- Well-formedness of a tile table: every tile is 8 rows of 8 pixel-index
values below 4 — what `LoadSprite` produces for byte input. -/
def WFTileTable (table : List Tile) : Prop :=
  ∀ t ∈ table, t.length = 8 ∧ ∀ row ∈ t, row.length = 8 ∧ ∀ v ∈ row, v < 4

/-- A tile whose every pixel-index is 3 (rendered black by the default
palette); used for concrete sprite-sheet scenarios. -/
def blackTile : Tile := List.replicate 8 (List.replicate 8 3)

section Lemmas

theorem bind_ok {α β : Type} (a : α) (f : α → Except PyError β) :
    (Except.ok a >>= f) = f a := rfl

theorem bind_error {α β : Type} (e : PyError) (f : α → Except PyError β) :
    ((Except.error e : Except PyError α) >>= f) = .error e := rfl

theorem map_ok {α β : Type} (f : α → β) (a : α) :
    (f <$> (Except.ok a : Except PyError α)) = .ok (f a) := rfl

theorem map_error {α β : Type} (f : α → β) (e : PyError) :
    (f <$> (Except.error e : Except PyError α)) = .error e := rfl

/-- A full 16-byte record decodes to `decodedTile`. -/
theorem loadSprite_full : ∀ r : List Nat, r.length = 16 → LoadSprite r = .ok (decodedTile r) := by
  intro r h
  rcases r with _ | ⟨a0, r⟩; · simp at h
  rcases r with _ | ⟨a1, r⟩; · simp at h
  rcases r with _ | ⟨a2, r⟩; · simp at h
  rcases r with _ | ⟨a3, r⟩; · simp at h
  rcases r with _ | ⟨a4, r⟩; · simp at h
  rcases r with _ | ⟨a5, r⟩; · simp at h
  rcases r with _ | ⟨a6, r⟩; · simp at h
  rcases r with _ | ⟨a7, r⟩; · simp at h
  rcases r with _ | ⟨a8, r⟩; · simp at h
  rcases r with _ | ⟨a9, r⟩; · simp at h
  rcases r with _ | ⟨a10, r⟩; · simp at h
  rcases r with _ | ⟨a11, r⟩; · simp at h
  rcases r with _ | ⟨a12, r⟩; · simp at h
  rcases r with _ | ⟨a13, r⟩; · simp at h
  rcases r with _ | ⟨a14, r⟩; · simp at h
  rcases r with _ | ⟨a15, r⟩; · simp at h
  rcases r with _ | ⟨a16, r⟩
  · rfl
  · exfalso; simp only [List.length_cons] at h; omega

/-- A record shorter than 16 bytes makes `LoadSprite` raise `ValueError`
(some row's two-hex-digit unpack gets fewer than 2 items). -/
theorem loadSprite_short : ∀ r : List Nat, r.length < 16 →
    LoadSprite r = .error .valueError := by
  intro r h
  rcases r with _ | ⟨a0, r⟩; · rfl
  rcases r with _ | ⟨a1, r⟩; · rfl
  rcases r with _ | ⟨a2, r⟩; · rfl
  rcases r with _ | ⟨a3, r⟩; · rfl
  rcases r with _ | ⟨a4, r⟩; · rfl
  rcases r with _ | ⟨a5, r⟩; · rfl
  rcases r with _ | ⟨a6, r⟩; · rfl
  rcases r with _ | ⟨a7, r⟩; · rfl
  rcases r with _ | ⟨a8, r⟩; · rfl
  rcases r with _ | ⟨a9, r⟩; · rfl
  rcases r with _ | ⟨a10, r⟩; · rfl
  rcases r with _ | ⟨a11, r⟩; · rfl
  rcases r with _ | ⟨a12, r⟩; · rfl
  rcases r with _ | ⟨a13, r⟩; · rfl
  rcases r with _ | ⟨a14, r⟩; · rfl
  rcases r with _ | ⟨a15, r⟩; · rfl
  exfalso; simp only [List.length_cons] at h; omega

theorem rowFromBytes_length (a b : Nat) : (rowFromBytes a b).length = 8 := by
  simp [rowFromBytes, CompositeSpriteValue, nibbleBits]

/-- Pixel `j` of a composited row is twice channel A's bit `7-j` plus
channel B's bit `7-j`. -/
theorem rowFromBytes_pixel (a b j : Nat) (hj : j < 8) :
    (rowFromBytes a b).getD j 0 = 2 * (a / 2 ^ (7 - j) % 2) + b / 2 ^ (7 - j) % 2 := by
  interval_cases j <;>
    simp [rowFromBytes, CompositeSpriteValue, nibbleBits] <;> omega

theorem decodedTile_length (r : List Nat) : (decodedTile r).length = 8 := by
  simp [decodedTile]

theorem decodedTile_getD (r : List Nat) (i : Nat) (hi : i < 8) :
    (decodedTile r).getD i [] = rowFromBytes (r.getD i 0) (r.getD (8 + i) 0) := by
  interval_cases i <;> rfl

/-- Palette construction on a slice shorter than 4 bytes raises `IndexError`
(at the first missing byte index, provided the bytes read before it have
colour-table entries — Python evaluates each dict entry's byte index and then
its table lookup, in the order 0, 2, 1, 3). -/
theorem loadPaletteBytes_short (tbl : Nat → Option Color) (pb : List Nat)
    (h : pb.length < 4) (ht : ∀ b ∈ pb, (tbl b).isSome) :
    LoadPaletteBytes tbl pb = .error .indexError := by
  rcases pb with _ | ⟨a, pb⟩
  · rfl
  rcases pb with _ | ⟨b, pb⟩
  · obtain ⟨c0, hc0⟩ := Option.isSome_iff_exists.mp (ht a (by simp))
    simp [LoadPaletteBytes, pyByte, pyLookup, hc0, bind_ok, bind_error, map_ok, map_error]
  rcases pb with _ | ⟨c, pb⟩
  · obtain ⟨c0, hc0⟩ := Option.isSome_iff_exists.mp (ht a (by simp))
    simp [LoadPaletteBytes, pyByte, pyLookup, hc0, bind_ok, bind_error, map_ok, map_error]
  rcases pb with _ | ⟨d, pb⟩
  · obtain ⟨c0, hc0⟩ := Option.isSome_iff_exists.mp (ht a (by simp))
    obtain ⟨c1, hc1⟩ := Option.isSome_iff_exists.mp (ht c (by simp))
    obtain ⟨c2, hc2⟩ := Option.isSome_iff_exists.mp (ht b (by simp))
    simp [LoadPaletteBytes, pyByte, pyLookup, hc0, hc1, hc2, bind_ok, bind_error, map_ok, map_error]
  · exfalso; simp only [List.length_cons] at h; omega

/-- Palette construction on a full 4-byte slice raises `KeyError` as soon as
one of the source bytes has no colour-table entry. -/
theorem loadPaletteBytes_missing (tbl : Nat → Option Color) (pb : List Nat)
    (h : pb.length = 4) (hmiss : ∃ b ∈ pb, tbl b = none) :
    LoadPaletteBytes tbl pb = .error .keyError := by
  rcases pb with _ | ⟨a, pb⟩; · simp at h
  rcases pb with _ | ⟨b, pb⟩; · simp at h
  rcases pb with _ | ⟨c, pb⟩; · simp at h
  rcases pb with _ | ⟨d, pb⟩; · simp at h
  rcases pb with _ | ⟨e, pb⟩
  · rcases ha : tbl a with _ | ca
    · simp [LoadPaletteBytes, pyByte, pyLookup, ha, bind_ok, bind_error, map_ok, map_error]
    rcases hc : tbl c with _ | cc
    · simp [LoadPaletteBytes, pyByte, pyLookup, ha, hc, bind_ok, bind_error, map_ok, map_error]
    rcases hb : tbl b with _ | cb
    · simp [LoadPaletteBytes, pyByte, pyLookup, ha, hc, hb, bind_ok, bind_error, map_ok, map_error]
    rcases hd : tbl d with _ | cd
    · simp [LoadPaletteBytes, pyByte, pyLookup, ha, hc, hb, hd, bind_ok, bind_error, map_ok, map_error]
    · exfalso
      obtain ⟨x, hx, hnone⟩ := hmiss
      simp only [List.mem_cons, List.not_mem_nil, or_false] at hx
      rcases hx with rfl | rfl | rfl | rfl <;> simp_all
  · exfalso; simp only [List.length_cons] at h; omega

/-- Palette construction on a full 4-byte slice whose bytes all have
colour-table entries succeeds. -/
theorem loadPaletteBytes_ok (tbl : Nat → Option Color) (pb : List Nat)
    (h : pb.length = 4) (ht : ∀ b ∈ pb, (tbl b).isSome) :
    ∃ p, LoadPaletteBytes tbl pb = .ok p := by
  rcases pb with _ | ⟨a, pb⟩; · simp at h
  rcases pb with _ | ⟨b, pb⟩; · simp at h
  rcases pb with _ | ⟨c, pb⟩; · simp at h
  rcases pb with _ | ⟨d, pb⟩; · simp at h
  rcases pb with _ | ⟨e, pb⟩
  · obtain ⟨c0, hc0⟩ := Option.isSome_iff_exists.mp (ht a (by simp))
    obtain ⟨c1, hc1⟩ := Option.isSome_iff_exists.mp (ht c (by simp))
    obtain ⟨c2, hc2⟩ := Option.isSome_iff_exists.mp (ht b (by simp))
    obtain ⟨c3, hc3⟩ := Option.isSome_iff_exists.mp (ht d (by simp))
    refine ⟨fun v => if v = 0 then some c0 else if v = 1 then some c1
      else if v = 2 then some c2 else if v = 3 then some c3 else none, ?_⟩
    simp [LoadPaletteBytes, pyByte, pyLookup, hc0, hc1, hc2, hc3, bind_ok, map_ok]
  · exfalso; simp only [List.length_cons] at h; omega

theorem palette_slice_length (data : List Nat) (address : Nat) :
    ((data.drop address).take 4).length = min 4 (data.length - address) := by
  simp [List.length_take, List.length_drop]

theorem pure_ok {σ : Type} (s : σ) : (pure s : Except PyError σ) = .ok s := rfl

/-- `foldlM` in the `Except` monad succeeds and preserves an invariant when
every step does. -/
theorem foldlM_inv {α σ : Type} (f : σ → α → Except PyError σ) (inv : σ → Prop) :
    ∀ (l : List α) (s : σ), inv s →
    (∀ s a, inv s → a ∈ l → ∃ t, f s a = .ok t ∧ inv t) →
    ∃ t, l.foldlM f s = .ok t ∧ inv t := by
  intro l
  induction l with
  | nil => exact fun s hs _ => ⟨s, rfl, hs⟩
  | cons a l ih =>
    intro s hs hstep
    obtain ⟨t, hft, hit⟩ := hstep s a hs (by simp)
    rw [List.foldlM_cons, hft, bind_ok]
    exact ih t hit (fun s b hs hb => hstep s b hs (List.mem_cons_of_mem _ hb))

theorem mem_enum_facts {α : Type} (l : List α) (x : Nat × α) (h : x ∈ l.enum) :
    x.1 < l.length ∧ x.2 ∈ l := by
  rw [List.mem_enum_iff_getElem?] at h
  exact ⟨(List.getElem?_eq_some.mp h).1, List.getElem?_mem h⟩

theorem putpixel_ok (img : Canvas) (p : Nat × Nat) (v : Color)
    (h1 : p.1 < img.width) (h2 : p.2 < img.height) :
    ∃ img2, img.putpixel p v = .ok img2 ∧
      img2.width = img.width ∧ img2.height = img.height := by
  rw [Canvas.putpixel, if_pos ⟨h1, h2⟩]
  exact ⟨_, rfl, rfl, rfl⟩

/-- In-range non-negative Python indexing returns the list element. -/
theorem pyGet_nat_ok {α : Type} (l : List α) (n : Nat) (d : α) (h : n < l.length) :
    pyGet l (n : Int) = .ok (l.getD n d) := by
  rw [pyGet, if_pos (Int.ofNat_nonneg n)]
  rw [List.getD_eq_getElem?_getD, List.getElem?_eq_getElem h]
  simp [List.get?_eq_getElem?, List.getElem?_eq_getElem h]

/-- A non-negative index at or past the end raises `IndexError`. -/
theorem pyGet_nat_err {α : Type} (l : List α) (n : Nat) (h : l.length ≤ n) :
    pyGet l (n : Int) = .error .indexError := by
  rw [pyGet, if_pos (Int.ofNat_nonneg n)]
  simp [List.get?_eq_getElem?, List.getElem?_eq_none_iff.mpr (by simpa using h)]

/-- A negative index `-k` with `1 ≤ k ≤ len` resolves to element `len - k`. -/
theorem pyGet_neg_ok {α : Type} (l : List α) (k : Nat) (d : α)
    (h1 : 1 ≤ k) (h2 : k ≤ l.length) :
    pyGet l (-(k : Int)) = .ok (l.getD (l.length - k) d) := by
  have hneg : ¬(0 ≤ -(k : Int)) := by omega
  have habs : (-(k : Int)).natAbs = k := by omega
  have hlt : l.length - k < l.length := by omega
  rw [pyGet, if_neg hneg, habs, if_pos h2]
  rw [List.getD_eq_getElem?_getD, List.getElem?_eq_getElem hlt]
  simp [List.get?_eq_getElem?, List.getElem?_eq_getElem hlt]

/-- Any index in `[-len, len)` succeeds and returns a list member. -/
theorem pyGet_ok_mem {α : Type} (l : List α) (i : Int)
    (h1 : -(l.length : Int) ≤ i) (h2 : i < l.length) :
    ∃ a, pyGet l i = .ok a ∧ a ∈ l := by
  by_cases h0 : 0 ≤ i
  · have hlt : i.toNat < l.length := by omega
    have : (i.toNat : Int) = i := by omega
    refine ⟨l.get ⟨i.toNat, hlt⟩, ?_, List.get_mem l _ hlt⟩
    rw [pyGet, if_pos h0]
    simp [List.get?_eq_getElem?, List.getElem?_eq_getElem hlt, List.get_eq_getElem]
  · have habs : i.natAbs ≤ l.length := by omega
    have h1' : 1 ≤ i.natAbs := by omega
    have hlt : l.length - i.natAbs < l.length := by omega
    refine ⟨l.get ⟨l.length - i.natAbs, hlt⟩, ?_, List.get_mem l _ hlt⟩
    rw [pyGet, if_neg h0, if_pos habs]
    simp [List.get?_eq_getElem?, List.getElem?_eq_getElem hlt, List.get_eq_getElem]

/-- When the footprint already fits, `MaybeEnlargeImage` is the identity. -/
theorem maybeEnlarge_id (img : Canvas) (width height x_val y_val : Nat)
    (h1 : width + x_val ≤ img.width) (h2 : height + y_val ≤ img.height) :
    MaybeEnlargeImage img width height x_val y_val = img := by
  rw [MaybeEnlargeImage, if_neg]
  omega

/-- The two inner pixel loops succeed on a well-formed 8×8 tile whose
footprint fits, and preserve the canvas size. -/
theorem drawTilePixels_ok (pal : Palette) (hpal : ∀ v, v < 4 → (pal v).isSome)
    (img : Canvas) (t : Tile)
    (hWFt : t.length = 8 ∧ ∀ row ∈ t, row.length = 8 ∧ ∀ v ∈ row, v < 4)
    (x0 y0 : Nat) (hx : x0 + 8 ≤ img.width) (hy : y0 + 8 ≤ img.height) :
    ∃ img2, drawTilePixels pal img t x0 y0 = .ok img2 ∧
      img2.width = img.width ∧ img2.height = img.height := by
  obtain ⟨ht8, hWFrows⟩ := hWFt
  unfold drawTilePixels
  apply foldlM_inv _ (fun c => c.width = img.width ∧ c.height = img.height) t.enum img
    ⟨rfl, rfl⟩
  intro c ri_row hc hmem
  obtain ⟨hri, hrow⟩ := mem_enum_facts t ri_row hmem
  obtain ⟨hrlen, hrv⟩ := hWFrows ri_row.2 hrow
  apply foldlM_inv _ (fun c2 => c2.width = img.width ∧ c2.height = img.height) _ c hc
  intro c2 ci_v hc2 hmem2
  obtain ⟨hci, hv⟩ := mem_enum_facts ri_row.2 ci_v hmem2
  obtain ⟨hcw, hch⟩ := hc2
  obtain ⟨col, hcol⟩ := Option.isSome_iff_exists.mp (hpal ci_v.2 (hrv ci_v.2 hv))
  obtain ⟨img2, hput, hw2, hh2⟩ := putpixel_ok c2 (x0 + ci_v.1, y0 + ri_row.1) col
    (by show x0 + ci_v.1 < c2.width; omega)
    (by show y0 + ri_row.1 < c2.height; omega)
  refine ⟨img2, ?_, hw2.trans hcw, hh2.trans hch⟩
  simp only [pyLookup, hcol, bind_ok, hput]

theorem foldl_max_init_le (l : List (List Int)) :
    ∀ init : Nat, init ≤ l.foldl (fun m r => max m r.length) init := by
  induction l with
  | nil => exact fun init => le_refl init
  | cons a l ih =>
    intro init
    exact le_trans (le_max_left init a.length) (ih (max init a.length))

theorem length_le_foldl_max (l : List (List Int)) :
    ∀ init : Nat, ∀ r ∈ l, r.length ≤ l.foldl (fun m r => max m r.length) init := by
  induction l with
  | nil => intro init r hr; exact absurd hr (List.not_mem_nil r)
  | cons a l ih =>
    intro init r hr
    rcases List.mem_cons.mp hr with rfl | hr
    · exact le_trans (le_max_right init r.length) (foldl_max_init_le l _)
    · exact ih (max init a.length) r hr

/-- `GetSpriteSize` on a non-empty layout: 8 times the longest row length by
8 times the row count. -/
theorem getSpriteSize_cons (r : List Int) (rest : List (List Int)) :
    GetSpriteSize (r :: rest) =
      .ok (((r :: rest).foldl (fun m q => max m q.length) 0) * 8,
        (r :: rest).length * 8) := rfl

/-- `DrawSprite` succeeds on a fresh canvas for any non-empty layout whose
tile indices are all within Python list range (negative indices included),
when the table is well-formed and the palette covers the pixel values. -/
theorem drawSprite_fresh_ok (table : List Tile) (hWF : WFTileTable table)
    (layout : List (List Int)) (r0 : List Int) (rest : List (List Int))
    (hlay : layout = r0 :: rest)
    (hidx : ∀ row ∈ layout, ∀ i ∈ row, -(table.length : Int) ≤ i ∧ i < table.length)
    (palette? : Option Palette)
    (hpal : ∀ v, v < 4 → ((palette?.getD DEFAULT_PALETTE) v).isSome)
    (x_val y_val : Nat) :
    ∃ img2, DrawSprite table none layout palette? x_val y_val = .ok img2 ∧
      img2.width = (layout.foldl (fun m q => max m q.length) 0) * 8 + x_val ∧
      img2.height = layout.length * 8 + y_val := by
  subst hlay
  unfold DrawSprite
  rw [getSpriteSize_cons, bind_ok]
  set L := (r0 :: rest : List (List Int)) with hL
  set W := (L.foldl (fun m q => max m q.length) 0) * 8 + x_val with hW
  set H := L.length * 8 + y_val with hH
  refine foldlM_inv _ (fun c => c.width = W ∧ c.height = H) L.enum
    (Canvas.new W H white) ⟨rfl, rfl⟩ ?_
  intro c bri_row hc hmem
  obtain ⟨hbri, hrowmem⟩ := mem_enum_facts L bri_row hmem
  refine foldlM_inv _ (fun c2 => c2.width = W ∧ c2.height = H) bri_row.2.enum c hc ?_
  intro c2 bci_n hc2 hmem2
  obtain ⟨hbci, hnmem⟩ := mem_enum_facts bri_row.2 bci_n hmem2
  obtain ⟨hge, hlt⟩ := hidx bri_row.2 hrowmem bci_n.2 hnmem
  obtain ⟨t, hpg, htm⟩ := pyGet_ok_mem table bci_n.2 hge hlt
  have hrowlen : bri_row.2.length ≤ L.foldl (fun m q => max m q.length) 0 :=
    length_le_foldl_max L 0 bri_row.2 hrowmem
  obtain ⟨img2, hdraw, hw2, hh2⟩ := drawTilePixels_ok (palette?.getD DEFAULT_PALETTE)
    hpal c2 t (hWF t htm) (x_val + bci_n.1 * 8) (y_val + bri_row.1 * 8)
    (by rw [hc2.1, hW]; omega) (by rw [hc2.2, hH]; omega)
  refine ⟨img2, ?_, hw2.trans hc2.1, hh2.trans hc2.2⟩
  rw [hpg, bind_ok, hdraw]

/-- `DrawSprite` on an existing sufficiently large canvas and the single-cell
layout `[[n]]` (`0 ≤ n < len(table)`) succeeds and preserves the canvas
size. -/
theorem drawSprite_cell_ok (table : List Tile) (hWF : WFTileTable table)
    (n : Nat) (hn : n < table.length) (img : Canvas) (palette? : Option Palette)
    (hpal : ∀ v, v < 4 → ((palette?.getD DEFAULT_PALETTE) v).isSome)
    (x_val y_val : Nat) (hx : 8 + x_val ≤ img.width) (hy : 8 + y_val ≤ img.height) :
    ∃ img2, DrawSprite table (some img) [[(n : Int)]] palette? x_val y_val = .ok img2 ∧
      img2.width = img.width ∧ img2.height = img.height := by
  have hsize : GetSpriteSize [[(n : Int)]] = .ok (8, 8) := rfl
  have hme : MaybeEnlargeImage img 8 8 x_val y_val = img :=
    maybeEnlarge_id img 8 8 x_val y_val hx hy
  have henum1 : ([[(n : Int)]] : List (List Int)).enum = [(0, [(n : Int)])] := rfl
  have henum2 : ([(n : Int)] : List Int).enum = [(0, (n : Int))] := rfl
  have hpg : pyGet table ((n : Nat) : Int) = .ok (table.getD n []) :=
    pyGet_nat_ok table n [] hn
  have htm : table.getD n [] ∈ table := by
    rw [List.getD_eq_getElem?_getD, List.getElem?_eq_getElem hn]
    exact List.getElem_mem hn
  obtain ⟨img2, hdraw, hw2, hh2⟩ := drawTilePixels_ok (palette?.getD DEFAULT_PALETTE)
    hpal img (table.getD n []) (hWF _ htm) (x_val + 0 * 8) (y_val + 0 * 8)
    (by omega) (by omega)
  refine ⟨img2, ?_, hw2, hh2⟩
  unfold DrawSprite
  rw [hsize, bind_ok]
  simp only [hme, henum1, henum2, List.foldlM_cons, List.foldlM_nil, hpg, bind_ok, hdraw,
    pure_ok]

/-- `DrawSprite` on the single-cell layout `[[n]]` with `n ≥ len(table)`
raises `IndexError` from the tile-table lookup, whatever the canvas. -/
theorem drawSprite_cell_err (table : List Tile) (n : Nat) (hn : table.length ≤ n)
    (img? : Option Canvas) (palette? : Option Palette) (x_val y_val : Nat) :
    DrawSprite table img? [[(n : Int)]] palette? x_val y_val = .error .indexError := by
  have hsize : GetSpriteSize [[(n : Int)]] = .ok (8, 8) := rfl
  have henum1 : ([[(n : Int)]] : List (List Int)).enum = [(0, [(n : Int)])] := rfl
  have henum2 : ([(n : Int)] : List Int).enum = [(0, (n : Int))] := rfl
  have hpg : pyGet table ((n : Nat) : Int) = .error .indexError := pyGet_nat_err table n hn
  unfold DrawSprite
  rw [hsize, bind_ok]
  cases img? <;>
    simp only [henum1, henum2, List.foldlM_cons, List.foldlM_nil, hpg, bind_ok, bind_error]

end Lemmas

/-- C2: for an in-bounds address whose 4 source bytes are `[a, b, c, d]`,
palette resolution maps pixel-index 0 to the colour-table entry for `a`,
1 to the entry for `c`, 2 to the entry for `b` and 3 to the entry for `d`
(source bytes 1 and 2 swapped).  The colour table itself is external to the
sources and is a parameter. -/
theorem c2_palette_swap (tbl : Nat → Option Color) (data : List Nat) (address : Nat)
    (a b c d : Nat) (hslice : (data.drop address).take 4 = [a, b, c, d])
    (ca cb cc cd : Color) (hta : tbl a = some ca) (htb : tbl b = some cb)
    (htc : tbl c = some cc) (htd : tbl d = some cd) :
    ∃ p, LoadPalette tbl data address = .ok p ∧
      p 0 = some ca ∧ p 1 = some cc ∧ p 2 = some cb ∧ p 3 = some cd := by
  unfold LoadPalette
  rw [hslice]
  refine ⟨fun v => if v = 0 then some ca else if v = 1 then some cc
    else if v = 2 then some cb else if v = 3 then some cd else none,
    ?_, rfl, rfl, rfl, rfl⟩
  simp [LoadPaletteBytes, pyByte, pyLookup, hta, htb, htc, htd, bind_ok, map_ok]

/-- C2 witness: the theorem applied to the buffer `[10, 20, 30, 40]` at
address 0 under the colour table sending a byte `v` to `(v, v, v)`. -/
theorem c2_palette_swap_witness :
    ∃ p, LoadPalette (fun v => if v < 256 then some (v, v, v) else none)
        [10, 20, 30, 40] 0 = .ok p ∧
      p 0 = some (10, 10, 10) ∧ p 1 = some (30, 30, 30) ∧
      p 2 = some (20, 20, 20) ∧ p 3 = some (40, 40, 40) :=
  c2_palette_swap (fun v => if v < 256 then some (v, v, v) else none)
    [10, 20, 30, 40] 0 10 20 30 40 (by rfl)
    (10, 10, 10) (20, 20, 20) (30, 30, 30) (40, 40, 40)
    (by decide) (by decide) (by decide) (by decide)

/-- C6: palette resolution raises `IndexError` (the spec's `OutOfRangeError`)
when `offset + 4` exceeds the buffer length (given that the bytes the dict
literal reads before hitting the missing index — Python evaluates them in the
order 0, 2, 1, 3 — have colour-table entries, which always holds for the
256-entry table of the specification); raises `KeyError` (the spec's
`UnknownColorIndexError`) when the slice is full but one of the 4 source
bytes has no colour-table entry; and succeeds otherwise. -/
theorem c6_palette_error_handling (tbl : Nat → Option Color) (data : List Nat)
    (address : Nat) :
    (data.length < address + 4 → (∀ b ∈ (data.drop address).take 4, (tbl b).isSome) →
      LoadPalette tbl data address = .error .indexError) ∧
    (address + 4 ≤ data.length → (∃ b ∈ (data.drop address).take 4, tbl b = none) →
      LoadPalette tbl data address = .error .keyError) ∧
    (address + 4 ≤ data.length → (∀ b ∈ (data.drop address).take 4, (tbl b).isSome) →
      ∃ p, LoadPalette tbl data address = .ok p) := by
  refine ⟨fun h ht => ?_, fun h hmiss => ?_, fun h ht => ?_⟩
  · exact loadPaletteBytes_short tbl _ (by rw [palette_slice_length]; omega) ht
  · exact loadPaletteBytes_missing tbl _ (by rw [palette_slice_length]; omega) hmiss
  · exact loadPaletteBytes_ok tbl _ (by rw [palette_slice_length]; omega) ht

/-- C6 witness: the theorem applied at three concrete inputs — a 2-byte
buffer (address range exceeds it: `IndexError`), a 4-byte buffer with a byte
missing from the table (`KeyError`), and a 4-byte buffer fully covered
(success). -/
theorem c6_palette_error_handling_witness :
    LoadPalette (fun v => if v < 256 then some (v, v, v) else none) [1, 2] 0 =
      .error .indexError ∧
    LoadPalette (fun v => if v < 2 then some (v, v, v) else none) [0, 1, 2, 1] 0 =
      .error .keyError ∧
    ∃ p, LoadPalette (fun v => if v < 256 then some (v, v, v) else none) [5, 6, 7, 8] 0 =
      .ok p :=
  ⟨(c6_palette_error_handling (fun v => if v < 256 then some (v, v, v) else none)
      [1, 2] 0).1 (by decide) (by decide),
   (c6_palette_error_handling (fun v => if v < 2 then some (v, v, v) else none)
      [0, 1, 2, 1] 0).2.1 (by decide) ⟨2, by decide, by decide⟩,
   (c6_palette_error_handling (fun v => if v < 256 then some (v, v, v) else none)
      [5, 6, 7, 8] 0).2.2 (by decide) (by decide)⟩

/-- C1: every 16-byte record decodes to a tile of exactly 8 rows of 8
pixel-index values, where row `i` pixel `j` composes bit `7-j` of byte `i`
(plane A) with bit `7-j` of byte `8+i` (plane B) as `2*a + b` — so
(0,0)↦0, (0,1)↦1, (1,0)↦2, (1,1)↦3, high nibble first; in particular 16 zero
bytes decode to the all-0 tile, and plane A `0xFF×8` with plane B `0x00×8`
decodes to the all-2 tile. -/
theorem c1_tile_decoding (record : List Nat) (h : record.length = 16) :
    (∃ tile, LoadSprite record = .ok tile ∧ tile.length = 8 ∧
      ∀ i, i < 8 → (tile.getD i []).length = 8 ∧ ∀ j, j < 8 →
        (tile.getD i []).getD j 0 =
          2 * (record.getD i 0 / 2 ^ (7 - j) % 2) + record.getD (8 + i) 0 / 2 ^ (7 - j) % 2) ∧
    LoadSprite (List.replicate 16 0) = .ok (List.replicate 8 (List.replicate 8 0)) ∧
    LoadSprite (List.replicate 8 0xFF ++ List.replicate 8 0) =
      .ok (List.replicate 8 (List.replicate 8 2)) := by
  refine ⟨⟨decodedTile record, loadSprite_full record h, decodedTile_length record, ?_⟩,
    by rfl, by rfl⟩
  intro i hi
  rw [decodedTile_getD record i hi]
  exact ⟨rowFromBytes_length _ _, fun j hj => rowFromBytes_pixel _ _ j hj⟩

/-- C1 witness: the theorem applied to the concrete record `[0, 1, ..., 15]`. -/
theorem c1_tile_decoding_witness :
    (∃ tile, LoadSprite (List.range 16) = .ok tile ∧ tile.length = 8 ∧
      ∀ i, i < 8 → (tile.getD i []).length = 8 ∧ ∀ j, j < 8 →
        (tile.getD i []).getD j 0 =
          2 * ((List.range 16).getD i 0 / 2 ^ (7 - j) % 2) +
            (List.range 16).getD (8 + i) 0 / 2 ^ (7 - j) % 2) ∧
    LoadSprite (List.replicate 16 0) = .ok (List.replicate 8 (List.replicate 8 0)) ∧
    LoadSprite (List.replicate 8 0xFF ++ List.replicate 8 0) =
      .ok (List.replicate 8 (List.replicate 8 2)) :=
  c1_tile_decoding (List.range 16) (by decide)

/-- C7: `MaybeEnlargeImage` returns a canvas of exactly
`(max(oldW, width+x), max(oldH, height+y))`; every pixel inside the old bounds
keeps its value; when the canvas already fits the footprint in both
dimensions the very same canvas is returned; the result never shrinks in
either dimension. -/
theorem c7_canvas_enlargement (img : Canvas) (width height x_val y_val : Nat) :
    (MaybeEnlargeImage img width height x_val y_val).width = max img.width (width + x_val) ∧
    (MaybeEnlargeImage img width height x_val y_val).height = max img.height (height + y_val) ∧
    (∀ p : Nat × Nat, p.1 < img.width → p.2 < img.height →
      (MaybeEnlargeImage img width height x_val y_val).pix p = img.pix p) ∧
    (width + x_val ≤ img.width → height + y_val ≤ img.height →
      MaybeEnlargeImage img width height x_val y_val = img) ∧
    img.width ≤ (MaybeEnlargeImage img width height x_val y_val).width ∧
    img.height ≤ (MaybeEnlargeImage img width height x_val y_val).height := by
  by_cases hc : max img.height (height + y_val) > img.height ∨
      max img.width (width + x_val) > img.width
  · rw [MaybeEnlargeImage, if_pos hc]
    refine ⟨rfl, rfl, fun p h1 h2 => by simp [h1, h2], fun hw hh => ?_, ?_, ?_⟩
    · exfalso; rcases hc with hc | hc <;> omega
    · exact le_max_left _ _
    · exact le_max_left _ _
  · rw [MaybeEnlargeImage, if_neg hc]
    push_neg at hc
    refine ⟨by omega, by omega, fun p h1 h2 => rfl, fun _ _ => rfl, le_refl _, le_refl _⟩

/-- C7 witness: enlarging a fresh 1×1 canvas to hold an 8×8 footprint at
(2, 3) keeps the origin pixel and yields a 10×11 canvas. -/
theorem c7_canvas_enlargement_witness :
    (MaybeEnlargeImage (Canvas.new 1 1 (9, 9, 9)) 8 8 2 3).width = max 1 (8 + 2) ∧
    (MaybeEnlargeImage (Canvas.new 1 1 (9, 9, 9)) 8 8 2 3).height = max 1 (8 + 3) ∧
    (MaybeEnlargeImage (Canvas.new 1 1 (9, 9, 9)) 8 8 2 3).pix (0, 0) =
      (Canvas.new 1 1 (9, 9, 9)).pix (0, 0) := by
  obtain ⟨h1, h2, h3, -⟩ := c7_canvas_enlargement (Canvas.new 1 1 (9, 9, 9)) 8 8 2 3
  exact ⟨h1, h2, h3 (0, 0) (by decide) (by decide)⟩

/-- C10: the footprint computation on a layout with zero rows raises
`ValueError` (Python's `max` of an empty sequence), so `DrawSprite` on an
empty layout fails and produces no canvas. -/
theorem c10_empty_layout (table : List Tile) (img? : Option Canvas)
    (palette? : Option Palette) (x_val y_val : Nat) :
    GetSpriteSize ([] : List (List Int)) = .error .valueError ∧
    DrawSprite table img? [] palette? x_val y_val = .error .valueError :=
  ⟨rfl, rfl⟩

/-- C8: a tile index at or past the table size raises `IndexError` (the
spec's `UnknownTileIndexError`) from the tile lookup; `DrawSprite` propagates
it unchanged to its caller; and inside the sprite-sheet exporter's per-row
loop the same error is absorbed locally, terminating the row early with the
canvas as it was, not an error. -/
theorem c8_unknown_tile_index (table : List Tile) (n : Nat) (hn : table.length ≤ n)
    (img? : Option Canvas) (palette? : Option Palette) (x_val y_val : Nat) :
    pyGet table (n : Int) = .error .indexError ∧
    DrawSprite table img? [[(n : Int)]] palette? x_val y_val = .error .indexError ∧
    ∀ (pal : Palette) (img : Canvas) (r y c : Nat) (rest : List Nat),
      table.length ≤ r + c →
      exportRowAux table pal img r y (c :: rest) = .ok img := by
  refine ⟨pyGet_nat_err table n hn,
    drawSprite_cell_err table n hn img? palette? x_val y_val, ?_⟩
  intro pal img r y c rest hrc
  have hde : DrawSprite table (some img) [[((r + c : Nat) : Int)]] (some pal) (c * 8) y =
      .error .indexError := drawSprite_cell_err table (r + c) hrc (some img) (some pal) (c * 8) y
  simp only [exportRowAux, hde]

/-- C8 witness: on a 1-tile table, index 5 fails the lookup, fails
`DrawSprite`, and is absorbed by the exporter row loop (column 5 of row 0),
which returns the canvas unchanged. -/
theorem c8_unknown_tile_index_witness :
    pyGet [blackTile] ((5 : Nat) : Int) = .error .indexError ∧
    DrawSprite [blackTile] none [[((5 : Nat) : Int)]] none 0 0 = .error .indexError ∧
    exportRowAux [blackTile] DEFAULT_PALETTE (Canvas.new 8 8 white) 0 0 [5, 6] =
      .ok (Canvas.new 8 8 white) :=
  ⟨(c8_unknown_tile_index [blackTile] 5 (by decide) none none 0 0).1,
   (c8_unknown_tile_index [blackTile] 5 (by decide) none none 0 0).2.1,
   (c8_unknown_tile_index [blackTile] 5 (by decide) none none 0 0).2.2
     DEFAULT_PALETTE (Canvas.new 8 8 white) 0 0 5 [6] (by decide)⟩

/-- C9: on a non-empty well-formed table of size N, a layout containing a
negative tile index `-k` (`1 ≤ k ≤ N`, all indices of the layout within
Python's accepted range `[-N, N)`) does not make `DrawSprite` fail — it
succeeds, the negative index resolving to tile `N - k` through Python list
indexing. -/
theorem c9_negative_tile_index (table : List Tile) (hWF : WFTileTable table)
    (layout : List (List Int)) (r0 : List Int) (rest : List (List Int))
    (hlay : layout = r0 :: rest) (k : Nat) (hk1 : 1 ≤ k) (hk2 : k ≤ table.length)
    (_hkin : ∃ row ∈ layout, -(k : Int) ∈ row)
    (hidx : ∀ row ∈ layout, ∀ i ∈ row, -(table.length : Int) ≤ i ∧ i < table.length)
    (x_val y_val : Nat) :
    (∃ img2, DrawSprite table none layout none x_val y_val = .ok img2) ∧
    pyGet table (-(k : Int)) = .ok (table.getD (table.length - k) []) := by
  refine ⟨?_, pyGet_neg_ok table k [] hk1 hk2⟩
  obtain ⟨img2, h, -, -⟩ := drawSprite_fresh_ok table hWF layout r0 rest hlay hidx none
    (by intro v hv; interval_cases v <;> rfl) x_val y_val
  exact ⟨img2, h⟩

/-- C9 witness: on a 2-tile table the layout `[[-1]]` draws successfully and
`-1` resolves to tile `2 - 1 = 1`. -/
theorem c9_negative_tile_index_witness :
    (∃ img2, DrawSprite [blackTile, blackTile] none [[(-1 : Int)]] none 0 0 = .ok img2) ∧
    pyGet [blackTile, blackTile] (-(1 : Int)) =
      .ok ([blackTile, blackTile].getD ([blackTile, blackTile].length - 1) []) :=
  c9_negative_tile_index [blackTile, blackTile] (by unfold WFTileTable; decide)
    [[(-1 : Int)]] [(-1 : Int)] []
    rfl 1 (by decide) (by decide) ⟨[(-1 : Int)], by decide, by decide⟩ (by decide) 0 0

theorem pyByte_ok (l : List Nat) (i : Nat) (h : i < l.length) :
    pyByte l i = .ok (l.getD i 0) := by
  rw [List.getD_eq_getElem?_getD, List.getElem?_eq_getElem h]
  simp [pyByte, List.get?_eq_getElem?, List.getElem?_eq_getElem h]

theorem pyByte_err (l : List Nat) (i : Nat) (h : l.length ≤ i) :
    pyByte l i = .error .indexError := by
  simp [pyByte, List.get?_eq_getElem?, List.getElem?_eq_none_iff.mpr (by simpa using h)]

theorem convertToHex_ne_nil (bs : List Nat) (h : bs ≠ []) :
    ConvertToHex bs = .ok (bs.foldl (fun acc b => acc * 256 + b) 0) := by
  cases bs with
  | nil => exact absurd rfl h
  | cons a bs => rfl

theorem readByteHex_ok (data : List Nat) (i : Nat) (h : i < data.length) :
    readByteHex data i = .ok (data.getD i 0) := by
  simp [readByteHex, pyByte_ok data i h, bind_ok, ConvertToHex]

theorem readByteHex_err (data : List Nat) (i : Nat) (h : data.length ≤ i) :
    readByteHex data i = .error .indexError := by
  simp [readByteHex, pyByte_err data i h, bind_error]

/-- `mapM` succeeds pointwise. -/
theorem mapM_ok {α β : Type} (f : α → Except PyError β) (g : α → β) :
    ∀ l : List α, (∀ a ∈ l, f a = .ok (g a)) → l.mapM f = .ok (l.map g) := by
  intro l
  induction l with
  | nil => intro _; rfl
  | cons a l ih =>
    intro h
    rw [List.mapM_cons, h a (by simp), bind_ok,
      ih (fun b hb => h b (List.mem_cons_of_mem _ hb)), bind_ok]
    rfl

/-- `mapM` stops at the first failing element. -/
theorem mapM_error {α β : Type} (f : α → Except PyError β) (e : PyError) :
    ∀ (l1 : List α) (x : α) (l2 : List α),
      (∀ a ∈ l1, ∃ b, f a = .ok b) → f x = .error e →
      (l1 ++ x :: l2).mapM f = .error e := by
  intro l1
  induction l1 with
  | nil =>
    intro x l2 _ hx
    rw [List.nil_append, List.mapM_cons, hx, bind_error]
  | cons a l1 ih =>
    intro x l2 h hx
    obtain ⟨b, hb⟩ := h a (by simp)
    rw [List.cons_append, List.mapM_cons, hb, bind_ok,
      ih x l2 (fun c hc => h c (List.mem_cons_of_mem _ hc)) hx, bind_error]

/-- A 16-byte-aligned chunk of the character region, re-expressed as a slice
of the underlying file buffer. -/
theorem chunk_shift (data : List Nat) (start chrL k : Nat) (hk : k * 16 + 16 ≤ chrL) :
    ((((data.drop start).take chrL).drop (k * 16)).take 16) =
      ((data.drop (start + k * 16)).take 16) := by
  rw [List.drop_take, List.take_take, List.drop_drop,
    Nat.min_eq_left (by omega : 16 ≤ chrL - k * 16)]

/-- The sprite-decoding loop over a complete character region: one decoded
tile per 16-byte chunk, in offset order. -/
theorem sprites_mapM_ok (chr_data : List Nat) (chrL : Nat) (h16 : chrL % 16 = 0)
    (hlen : chr_data.length = chrL) :
    (pyRange chrL 16).mapM (fun index => LoadSprite ((chr_data.drop index).take 16)) =
      .ok ((List.range (chrL / 16)).map
        (fun k => decodedTile ((chr_data.drop (k * 16)).take 16))) := by
  have hm : (chrL + 16 - 1) / 16 = chrL / 16 := by omega
  rw [pyRange, hm]
  rw [mapM_ok _ (fun index => decodedTile ((chr_data.drop index).take 16))]
  · rw [List.map_map]; rfl
  · intro a ha
    obtain ⟨k, hk, rfl⟩ := List.mem_map.mp ha
    rw [List.mem_range] at hk
    apply loadSprite_full
    rw [List.length_take, List.length_drop, hlen]
    omega

/-- The sprite-decoding loop over a truncated character region: the first
short 16-byte chunk raises `ValueError` inside `LoadSprite`. -/
theorem sprites_mapM_err (chr_data : List Nat) (chrL : Nat) (h16 : chrL % 16 = 0)
    (hlen : chr_data.length < chrL) :
    (pyRange chrL 16).mapM (fun index => LoadSprite ((chr_data.drop index).take 16)) =
      .error .valueError := by
  have hm : (chrL + 16 - 1) / 16 = chrL / 16 := by omega
  set L := chr_data.length with hL
  set k0 := L / 16 with hk0
  set m := chrL / 16 with hmdef
  have hk0m : k0 < m := by omega
  have hsplit : List.range m = List.range k0 ++ (List.range (m - k0)).map (k0 + ·) := by
    rw [show m = k0 + (m - k0) by omega, List.range_add]
    simp
  have hmk0 : m - k0 = (m - k0 - 1) + 1 := by omega
  rw [pyRange, hm, hsplit, hmk0, List.range_succ_eq_map]
  rw [List.map_cons, List.map_append, List.map_cons]
  apply mapM_error
  · intro a ha
    obtain ⟨k, hk, rfl⟩ := List.mem_map.mp ha
    rw [List.mem_range] at hk
    refine ⟨decodedTile ((chr_data.drop (k * 16)).take 16), loadSprite_full _ ?_⟩
    rw [List.length_take, List.length_drop]
    omega
  · show LoadSprite ((chr_data.drop ((k0 + 0) * 16)).take 16) = .error .valueError
    apply loadSprite_short
    rw [List.length_take, List.length_drop]
    omega

/-- Successful construction, characterized: with at least 11 bytes of header
and a character region slice of full length, `NESSpriteReader.load` succeeds
and its fields are the derived header values and the decoded tile table. -/
theorem load_ok_characterization (data : List Nat) (tbl : Nat → Option Color)
    (h11 : 11 ≤ data.length)
    (hfit : ((data.drop (16 + data.getD 4 0 * 16384)).take (data.getD 5 0 * 8192)).length
      = data.getD 5 0 * 8192) :
    ∃ r, NESSpriteReader.load data none tbl = .ok r ∧
      r.prg_banks = data.getD 4 0 ∧ r.chr_banks = data.getD 5 0 ∧
      r.prg_length = data.getD 4 0 * 16384 ∧ r.chr_length = data.getD 5 0 * 8192 ∧
      r.chr_start = 16 + data.getD 4 0 * 16384 ∧
      r.chr_data = (data.drop (16 + data.getD 4 0 * 16384)).take (data.getD 5 0 * 8192) ∧
      r.sprites = (List.range (data.getD 5 0 * 8192 / 16)).map
        (fun k => decodedTile ((((data.drop (16 + data.getD 4 0 * 16384)).take
          (data.getD 5 0 * 8192)).drop (k * 16)).take 16)) := by
  have h4 := readByteHex_ok data 4 (by omega)
  have h5 := readByteHex_ok data 5 (by omega)
  have h6 := readByteHex_ok data 6 (by omega)
  have h7 := readByteHex_ok data 7 (by omega)
  have h8 := readByteHex_ok data 8 (by omega)
  have h9 := readByteHex_ok data 9 (by omega)
  have h10 := readByteHex_ok data 10 (by omega)
  have hzf := convertToHex_ne_nil ((data.drop 10).take 5) (by
    intro hnil
    have hl : ((data.drop 10).take 5).length = 0 := by rw [hnil]; rfl
    rw [List.length_take, List.length_drop] at hl
    omega)
  have hsp := sprites_mapM_ok
    ((data.drop (16 + data.getD 4 0 * 16384)).take (data.getD 5 0 * 8192))
    (data.getD 5 0 * 8192) (by omega) hfit
  refine ⟨{
      file_data := data, constant_bytes := (data.take 4), prg_banks := (data.getD 4 0),
      chr_banks := (data.getD 5 0), flags_6 := (data.getD 6 0), flags_7 := (data.getD 7 0),
      prg_ram_size := (data.getD 8 0), flags_9 := (data.getD 9 0), flags_10 := (data.getD 10 0),
      zero_fill := (((data.drop 10).take 5).foldl (fun acc b => acc * 256 + b) 0),
      prg_length := (data.getD 4 0 * 16384), chr_length := (data.getD 5 0 * 8192),
      prg_start := 16, chr_start := (16 + data.getD 4 0 * 16384),
      chr_data := ((data.drop (16 + data.getD 4 0 * 16384)).take (data.getD 5 0 * 8192)),
      sprites := ((List.range (data.getD 5 0 * 8192 / 16)).map
        (fun k => decodedTile ((((data.drop (16 + data.getD 4 0 * 16384)).take
          (data.getD 5 0 * 8192)).drop (k * 16)).take 16))),
      palettes := [] }, ?_, rfl, rfl, rfl, rfl, rfl, rfl, rfl⟩
  simp only [NESSpriteReader.load, h4, h5, h6, h7, h8, h9, h10, hzf, bind_ok, hsp, pure_ok]

/-- C3: for an input of at least 16 bytes whose character region
`[chrStart, chrStart + chrLength)` lies within the buffer — where
`chrLength = chrBanks * 8192` (always a multiple of 16) and
`chrStart = 16 + prgBanks * 16384` — construction succeeds and decodes
exactly `chrLength / 16` tiles, in byte-offset order: tile `k` is decoded
from the 16-byte record at offset `chrStart + 16*k`. -/
theorem c3_tile_table_size (data : List Nat) (tbl : Nat → Option Color)
    (h16 : 16 ≤ data.length)
    (hfit : 16 + data.getD 4 0 * 16384 + data.getD 5 0 * 8192 ≤ data.length) :
    ∃ r, NESSpriteReader.load data none tbl = .ok r ∧
      r.chr_length = data.getD 5 0 * 8192 ∧
      r.chr_start = 16 + data.getD 4 0 * 16384 ∧
      r.chr_length % 16 = 0 ∧
      r.sprites.length = r.chr_length / 16 ∧
      r.sprites = (List.range (data.getD 5 0 * 8192 / 16)).map
        (fun k => decodedTile ((data.drop (16 + data.getD 4 0 * 16384 + k * 16)).take 16)) := by
  obtain ⟨r, hload, hpb, hcb, hpl, hcl, hcs, hcd, hsp⟩ :=
    load_ok_characterization data tbl (by omega)
      (by rw [List.length_take, List.length_drop]; omega)
  have hsprites : r.sprites = (List.range (data.getD 5 0 * 8192 / 16)).map
      (fun k => decodedTile ((data.drop (16 + data.getD 4 0 * 16384 + k * 16)).take 16)) := by
    rw [hsp]
    apply List.map_congr_left
    intro k hk
    rw [List.mem_range] at hk
    rw [chunk_shift data (16 + data.getD 4 0 * 16384) (data.getD 5 0 * 8192) k (by omega)]
  exact ⟨r, hload, hcl, hcs, by omega, by rw [hsprites, hcl]; simp, hsprites⟩

/-- C3 witness: the theorem applied to a 16-byte all-zero input (zero banks,
an empty character region, zero tiles). -/
theorem c3_tile_table_size_witness :
    ∃ r, NESSpriteReader.load (List.replicate 16 0) none (fun _ => none) = .ok r ∧
      r.chr_length = (List.replicate 16 0).getD 5 0 * 8192 ∧
      r.chr_start = 16 + (List.replicate 16 0).getD 4 0 * 16384 ∧
      r.chr_length % 16 = 0 ∧
      r.sprites.length = r.chr_length / 16 ∧
      r.sprites = (List.range ((List.replicate 16 0).getD 5 0 * 8192 / 16)).map
        (fun k => decodedTile (((List.replicate 16 0).drop
          (16 + (List.replicate 16 0).getD 4 0 * 16384 + k * 16)).take 16)) :=
  c3_tile_table_size (List.replicate 16 0) (fun _ => none) (by decide) (by decide)

/-- C4 (amended): construction fails with `IndexError` whenever the input has
fewer than 11 bytes (the header read of byte 0xA); fails with `ValueError`
whenever `chrBanks > 0` and the computed character region extends past the
end of the buffer (a truncated 16-byte tile record); and succeeds for every
other input — in particular for inputs of 11–15 bytes with `chrBanks = 0`,
refuting the claimed fewer-than-16-bytes failure threshold. -/
theorem c4_construction_errors (data : List Nat) (tbl : Nat → Option Color) :
    (data.length < 11 → NESSpriteReader.load data none tbl = .error .indexError) ∧
    (11 ≤ data.length →
      (data.getD 5 0 = 0 ∨ 16 + data.getD 4 0 * 16384 + data.getD 5 0 * 8192 ≤ data.length) →
      ∃ r, NESSpriteReader.load data none tbl = .ok r) ∧
    (11 ≤ data.length → 0 < data.getD 5 0 →
      data.length < 16 + data.getD 4 0 * 16384 + data.getD 5 0 * 8192 →
      NESSpriteReader.load data none tbl = .error .valueError) := by
  refine ⟨fun hlt => ?_, fun h11 hok => ?_, fun h11 hpos hexc => ?_⟩
  · by_cases c4 : data.length ≤ 4
    · simp only [NESSpriteReader.load, readByteHex_err data 4 c4, bind_error]
    by_cases c5 : data.length ≤ 5
    · simp only [NESSpriteReader.load, readByteHex_ok data 4 (by omega),
        readByteHex_err data 5 c5, bind_ok, bind_error]
    by_cases c6 : data.length ≤ 6
    · simp only [NESSpriteReader.load, readByteHex_ok data 4 (by omega),
        readByteHex_ok data 5 (by omega), readByteHex_err data 6 c6, bind_ok, bind_error]
    by_cases c7 : data.length ≤ 7
    · simp only [NESSpriteReader.load, readByteHex_ok data 4 (by omega),
        readByteHex_ok data 5 (by omega), readByteHex_ok data 6 (by omega),
        readByteHex_err data 7 c7, bind_ok, bind_error]
    by_cases c8 : data.length ≤ 8
    · simp only [NESSpriteReader.load, readByteHex_ok data 4 (by omega),
        readByteHex_ok data 5 (by omega), readByteHex_ok data 6 (by omega),
        readByteHex_ok data 7 (by omega), readByteHex_err data 8 c8, bind_ok, bind_error]
    by_cases c9 : data.length ≤ 9
    · simp only [NESSpriteReader.load, readByteHex_ok data 4 (by omega),
        readByteHex_ok data 5 (by omega), readByteHex_ok data 6 (by omega),
        readByteHex_ok data 7 (by omega), readByteHex_ok data 8 (by omega),
        readByteHex_err data 9 c9, bind_ok, bind_error]
    · have c10 : data.length ≤ 10 := by omega
      simp only [NESSpriteReader.load, readByteHex_ok data 4 (by omega),
        readByteHex_ok data 5 (by omega), readByteHex_ok data 6 (by omega),
        readByteHex_ok data 7 (by omega), readByteHex_ok data 8 (by omega),
        readByteHex_ok data 9 (by omega), readByteHex_err data 10 c10, bind_ok, bind_error]
  · obtain ⟨r, hload, -⟩ := load_ok_characterization data tbl h11 (by
      rw [List.length_take, List.length_drop]
      rcases hok with h0 | hfit <;> omega)
    exact ⟨r, hload⟩
  · have h4 := readByteHex_ok data 4 (by omega)
    have h5 := readByteHex_ok data 5 (by omega)
    have h6 := readByteHex_ok data 6 (by omega)
    have h7 := readByteHex_ok data 7 (by omega)
    have h8 := readByteHex_ok data 8 (by omega)
    have h9 := readByteHex_ok data 9 (by omega)
    have h10 := readByteHex_ok data 10 (by omega)
    have hzf := convertToHex_ne_nil ((data.drop 10).take 5) (by
      intro hnil
      have hl : ((data.drop 10).take 5).length = 0 := by rw [hnil]; rfl
      rw [List.length_take, List.length_drop] at hl
      omega)
    have hsperr := sprites_mapM_err
      ((data.drop (16 + data.getD 4 0 * 16384)).take (data.getD 5 0 * 8192))
      (data.getD 5 0 * 8192) (by omega)
      (by rw [List.length_take, List.length_drop]; omega)
    simp only [NESSpriteReader.load, h4, h5, h6, h7, h8, h9, h10, hzf, bind_ok, hsperr,
      bind_error]

/-- C4 counterexample: a 15-byte all-zero input (fewer than 16 bytes) does
not fail — construction succeeds with an empty tile table, because header
parsing reads no byte past index 0xA and the zero-bank character region is
empty. -/
theorem c4_counterexample :
    (NESSpriteReader.load (List.replicate 15 0) none (fun _ => none)).map
      (fun r => r.sprites.length) = .ok 0 := by rfl

/-- C4 witness: the amended theorem applied at a 3-byte input (header read
fails with `IndexError`), a 15-byte zero input (succeeds), and a 16-byte
input with `chrBanks = 1` whose character region overruns the buffer
(fails with `ValueError`). -/
theorem c4_construction_errors_witness :
    NESSpriteReader.load [0, 0, 0] none (fun _ => none) = .error .indexError ∧
    (∃ r, NESSpriteReader.load (List.replicate 15 0) none (fun _ => none) = .ok r) ∧
    NESSpriteReader.load [0, 0, 0, 0, 0, 1, 0, 0, 0, 0, 0, 0, 0, 0, 0, 0] none
      (fun _ => none) = .error .valueError :=
  ⟨(c4_construction_errors [0, 0, 0] (fun _ => none)).1 (by decide),
   (c4_construction_errors (List.replicate 15 0) (fun _ => none)).2.1 (by decide)
     (Or.inl (by decide)),
   (c4_construction_errors [0, 0, 0, 0, 0, 1, 0, 0, 0, 0, 0, 0, 0, 0, 0, 0]
     (fun _ => none)).2.2 (by decide) (by decide) (by decide)⟩

/-- Elements of `pyRange stop step` are below `stop`. -/
theorem pyRange_lt (stop step a : Nat) (hstep : 0 < step) (ha : a ∈ pyRange stop step) :
    a < stop := by
  obtain ⟨k, hk, rfl⟩ := List.mem_map.mp ha
  rw [List.mem_range] at hk
  show k * step < stop
  have h1 : (k + 1) * step ≤ ((stop + step - 1) / step) * step :=
    Nat.mul_le_mul_right step (by omega)
  have h2 : ((stop + step - 1) / step) * step ≤ stop + step - 1 := Nat.div_mul_le_self _ _
  have h3 : k * step + step ≤ stop + step - 1 := by
    have : (k + 1) * step = k * step + step := by ring
    omega
  generalize k * step = t at h3 ⊢
  omega

/-- The exporter's inner column loop succeeds on a well-formed table and a
sufficiently large canvas, preserving its size (columns past the end of the
table break out early via the absorbed `IndexError`). -/
theorem exportRowAux_ok (table : List Tile) (hWF : WFTileTable table) (pal : Palette)
    (hpal : ∀ v, v < 4 → (pal v).isSome) (r y : Nat) :
    ∀ (cols : List Nat) (img : Canvas),
      (∀ c ∈ cols, c * 8 + 8 ≤ img.width) → y + 8 ≤ img.height →
      ∃ img2, exportRowAux table pal img r y cols = .ok img2 ∧
        img2.width = img.width ∧ img2.height = img.height := by
  intro cols
  induction cols with
  | nil => exact fun img _ _ => ⟨img, rfl, rfl, rfl⟩
  | cons c rest ih =>
    intro img hcols hy
    by_cases hn : r + c < table.length
    · obtain ⟨img1, hdraw, hw1, hh1⟩ := drawSprite_cell_ok table hWF (r + c) hn img
        (some pal) hpal (c * 8) y (by have := hcols c (by simp); omega) (by omega)
      obtain ⟨img2, hrest, hw2, hh2⟩ := ih img1
        (fun d hd => by rw [hw1]; exact hcols d (List.mem_cons_of_mem _ hd))
        (by rw [hh1]; omega)
      refine ⟨img2, ?_, by rw [hw2, hw1], by rw [hh2, hh1]⟩
      simp only [exportRowAux, hdraw, hrest]
    · have hdraw := drawSprite_cell_err table (r + c) (by omega) (some img) (some pal)
        (c * 8) y
      refine ⟨img, ?_, rfl, rfl⟩
      simp only [exportRowAux, hdraw]

/-- The exporter's outer row loop: every row draws successfully, each row
index is appended to the label list, and the canvas size is preserved. -/
theorem exportLoop_ok (table : List Tile) (hWF : WFTileTable table) (pal : Palette)
    (hpal : ∀ v, v < 4 → (pal v).isSome) (per_row : Nat) (_hpr : 0 < per_row) :
    ∀ (rows : List Nat) (img : Canvas) (labs : List Nat),
      img.width = 8 * per_row → img.height = (table.length / per_row + 1) * 8 →
      (∀ rIdx ∈ rows, rIdx < table.length) →
      ∃ img2, rows.foldlM (fun acc row_index => do
          let img3 ← exportRowAux table pal acc.1 row_index (row_index / per_row * 8)
            (List.range per_row)
          pure (img3, acc.2 ++ [row_index])) (img, labs) = .ok (img2, labs ++ rows) ∧
        img2.width = 8 * per_row ∧ img2.height = (table.length / per_row + 1) * 8 := by
  intro rows
  induction rows with
  | nil =>
    intro img labs hw hh _
    refine ⟨img, ?_, hw, hh⟩
    rw [List.foldlM_nil, List.append_nil]
    rfl
  | cons r0 rows ih =>
    intro img labs hw hh hvalid
    have hr0 : r0 < table.length := hvalid r0 (by simp)
    have hyfits : r0 / per_row * 8 + 8 ≤ (table.length / per_row + 1) * 8 := by
      have hydiv : r0 / per_row ≤ table.length / per_row :=
        Nat.div_le_div_right (le_of_lt hr0)
      have harith : ∀ q1 q2 : Nat, q1 ≤ q2 → q1 * 8 + 8 ≤ (q2 + 1) * 8 := by
        intro q1 q2 h; omega
      exact harith _ _ hydiv
    obtain ⟨img1, hrow, hw1, hh1⟩ := exportRowAux_ok table hWF pal hpal r0
      (r0 / per_row * 8) (List.range per_row) img
      (fun c hc => by rw [hw]; rw [List.mem_range] at hc; omega)
      (by rw [hh]; exact hyfits)
    obtain ⟨img2, hfold, hw2, hh2⟩ := ih img1 (labs ++ [r0]) (hw1.trans hw) (hh1.trans hh)
      (fun rr hrr => hvalid rr (List.mem_cons_of_mem _ hrr))
    refine ⟨img2, ?_, hw2, hh2⟩
    simp only [List.foldlM_cons, hrow, bind_ok, pure_ok]
    simp only [pure_ok, List.append_assoc, List.singleton_append] at hfold
    exact hfold

set_option maxRecDepth 100000 in
/-- C5 (amended): the sprite-sheet export allocates a canvas of width
`8 * perRow` and height `(N // perRow + 1) * 8` — Python 2 floor division, not
the ceiling of the real quotient — and labels one row per `perRow` chunk of
the table.  The concrete scenario holds: with `perRow = 10` on a table of 25
all-index-3 tiles there are exactly 3 labeled rows (0, 10, 20), and the third
row has 5 drawn (black) cells followed by 5 blank (white) cells. -/
theorem c5_sprite_sheet :
    (∀ (table : List Tile) (per_row : Nat), 0 < per_row → WFTileTable table →
      ∃ p, WriteAndNumberAllSprites table none per_row = .ok p ∧
        p.1.width = 8 * per_row ∧ p.1.height = (table.length / per_row + 1) * 8 ∧
        p.2 = pyRange table.length per_row) ∧
    (WriteAndNumberAllSprites (List.replicate 25 blackTile) none 10).map (fun p => p.2) =
      .ok [0, 10, 20] ∧
    (WriteAndNumberAllSprites (List.replicate 25 blackTile) none 10).map
      (fun p => (List.range 10).map (fun c => p.1.pix (c * 8, 16))) =
      .ok (List.replicate 5 (0, 0, 0) ++ List.replicate 5 (255, 255, 255)) := by
  refine ⟨?_, by rfl, by rfl⟩
  intro table per_row hpr hWF
  have hpal : ∀ v, v < 4 → (DEFAULT_PALETTE v).isSome := by
    intro v hv; interval_cases v <;> rfl
  obtain ⟨img2, hfold, hw2, hh2⟩ := exportLoop_ok table hWF DEFAULT_PALETTE hpal
    per_row hpr (pyRange table.length per_row)
    (Canvas.new (8 * per_row) ((table.length / per_row + 1) * 8) white) []
    rfl rfl (fun rr hrr => pyRange_lt _ _ rr hpr hrr)
  refine ⟨(img2, pyRange table.length per_row), ?_, hw2, hh2, rfl⟩
  rw [WriteAndNumberAllSprites, if_neg (by omega)]
  simp only [Option.getD_none]
  simp only [List.nil_append] at hfold
  exact hfold

/-- C5 witness: the amended theorem applied to a 1-tile table with
`perRow = 3` (one labeled row, a 24×16 canvas). -/
theorem c5_sprite_sheet_witness :
    ∃ p, WriteAndNumberAllSprites [blackTile] none 3 = .ok p ∧
      p.1.width = 8 * 3 ∧ p.1.height = ([blackTile].length / 3 + 1) * 8 ∧
      p.2 = pyRange [blackTile].length 3 :=
  c5_sprite_sheet.1 [blackTile] 3 (by decide) (by unfold WFTileTable; decide)

set_option maxRecDepth 100000 in
/-- C5 counterexample: on a 25-tile table with `perRow = 10` the allocated
canvas height is `(25 // 10 + 1) * 8 = 24`, not the claimed
`ceil(25/10 + 1) * 8 = 32`. -/
theorem c5_counterexample :
    (WriteAndNumberAllSprites (List.replicate 25 blackTile) none 10).map
      (fun p => p.1.height) = .ok 24 ∧
    (24 : Nat) ≠ ((25 + 10 - 1) / 10 + 1) * 8 := by
  exact ⟨by rfl, by decide⟩
